import Mathlib

/-!
Verification of the `tokencount` tool (src/tools/tokencount/tokencount.py).

The script derives a cache directory next to its own location, computes the
SHA-1 hex digest of a fixed vocabulary URL as a cache key, creates a symbolic
link under that key (pointing at `./cl100k_base.tiktoken`) when no entry
exists at the key, and finally prints the number of tokens that the standard
input occupies under the `cl100k_base` encoding.

The development below is a shallow embedding: SHA-1 and the decimal printing
are implemented over `Nat`, the filesystem is an association list from path
strings to nodes (regular file, directory, or symbolic link with its literal
target string), and the POSIX path/symlink operations used by the script
(`os.path.join`, `os.path.exists`, `os.makedirs`, `os.symlink`) are given
executable semantics.  The external `tiktoken` library is not part of the
repository; its encoder is modelled from the spec as a byte-pair-encoding
merge loop parameterised by a merge-rank table.
-/

/-! ## SHA-1 over byte lists (the semantics of `hashlib.sha1(...).hexdigest()`) -/

def M32 : Nat := 4294967296

/-- Rotate a 32-bit word (a `Nat` below `M32`) left by `k` bits. -/
def rotl (k n : Nat) : Nat := ((n * 2 ^ k) % M32) + (n / 2 ^ (32 - k))

/-- Big-endian bytes of a 32-bit word. -/
def wordBytes (w : Nat) : List Nat :=
  [w / 16777216 % 256, w / 65536 % 256, w / 256 % 256, w % 256]

/-- Group a byte list into big-endian 32-bit words (complete groups of four). -/
def bytesToWords : List Nat → List Nat
  | b0 :: b1 :: b2 :: b3 :: rest =>
      (b0 * 16777216 + b1 * 65536 + b2 * 256 + b3) :: bytesToWords rest
  | _ => []

/-- Big-endian 8-byte rendering of a 64-bit length. -/
def len64Bytes (n : Nat) : List Nat :=
  [n / 2 ^ 56 % 256, n / 2 ^ 48 % 256, n / 2 ^ 40 % 256, n / 2 ^ 32 % 256,
   n / 2 ^ 24 % 256, n / 2 ^ 16 % 256, n / 2 ^ 8 % 256, n % 256]

/-- SHA-1 padding: append `0x80`, zero bytes to 56 mod 64, then the bit length. -/
def sha1Pad (msg : List Nat) : List Nat :=
  msg ++ 128 :: List.replicate ((119 - msg.length % 64) % 64) 0
      ++ len64Bytes (8 * msg.length)

/-- Extend a 16-word block to the 80-word SHA-1 message schedule. -/
def schedExpand : Nat → List Nat → List Nat
  | 0, w => w
  | n + 1, w =>
      let i := w.length
      let x := rotl 1 (Nat.xor (Nat.xor (w.getD (i - 3) 0) (w.getD (i - 8) 0))
                        (Nat.xor (w.getD (i - 14) 0) (w.getD (i - 16) 0)))
      schedExpand n (w ++ [x])

/-- The SHA-1 round function, selected by the round index `t`. -/
def sha1F (t b c d : Nat) : Nat :=
  if t < 20 then Nat.lor (Nat.land b c) (Nat.land (Nat.xor b (M32 - 1)) d)
  else if t < 40 then Nat.xor (Nat.xor b c) d
  else if t < 60 then Nat.lor (Nat.lor (Nat.land b c) (Nat.land b d)) (Nat.land c d)
  else Nat.xor (Nat.xor b c) d

/-- The SHA-1 round constant, selected by the round index `t`. -/
def sha1K (t : Nat) : Nat :=
  if t < 20 then 1518500249
  else if t < 40 then 1859775393
  else if t < 60 then 2400959708
  else 3395469782

/-- One SHA-1 round: state `(a,b,c,d,e)` updated with schedule word `w` at round `t`. -/
def sha1Round (st : Nat × Nat × Nat × Nat × Nat) (wt : Nat × Nat) :
    Nat × Nat × Nat × Nat × Nat :=
  match st, wt with
  | (a, b, c, d, e), (w, t) =>
      ((rotl 5 a + sha1F t b c d + e + sha1K t + w) % M32, a, rotl 30 b, c, d)

/-- Process one 16-word block against the running hash value. -/
def sha1Block (h : Nat × Nat × Nat × Nat × Nat) (block : List Nat) :
    Nat × Nat × Nat × Nat × Nat :=
  match h with
  | (h0, h1, h2, h3, h4) =>
      match List.foldl sha1Round (h0, h1, h2, h3, h4)
          ((schedExpand 64 block).zip (List.range 80)) with
      | (a, b, c, d, e) =>
          ((h0 + a) % M32, (h1 + b) % M32, (h2 + c) % M32,
           (h3 + d) % M32, (h4 + e) % M32)

/-- Split a byte list into chunks of 64, with explicit fuel for structural recursion. -/
def toBlocksFuel : Nat → List Nat → List (List Nat)
  | 0, _ => []
  | _, [] => []
  | n + 1, w :: ws => (w :: ws.take 63) :: toBlocksFuel n (ws.drop 63)

def toBlocks (l : List Nat) : List (List Nat) := toBlocksFuel l.length l

/-- The five 32-bit words of the SHA-1 digest of a byte message. -/
def sha1Words (msg : List Nat) : Nat × Nat × Nat × Nat × Nat :=
  List.foldl (fun h blk => sha1Block h (bytesToWords blk))
    (1732584193, 4023233417, 2562383102, 271733878, 3285377520)
    (toBlocks (sha1Pad msg))

/-- The 20-byte SHA-1 digest of a byte message. -/
def sha1Bytes (msg : List Nat) : List Nat :=
  match sha1Words msg with
  | (h0, h1, h2, h3, h4) =>
      wordBytes h0 ++ wordBytes h1 ++ wordBytes h2 ++ wordBytes h3 ++ wordBytes h4

/-- Lowercase hexadecimal digit for a value below 16. -/
def hexChar (d : Nat) : Char :=
  if d < 10 then Char.ofNat (48 + d) else Char.ofNat (87 + d)

/-- Lowercase hexadecimal rendering of a byte list, two digits per byte. -/
def bytesHex : List Nat → List Char
  | [] => []
  | b :: bs => hexChar (b / 16) :: hexChar (b % 16) :: bytesHex bs

/-- Lowercase hexadecimal SHA-1 digest string of a byte message. -/
def sha1Hex (msg : List Nat) : String := ⟨bytesHex (sha1Bytes msg)⟩

/-- UTF-8 encoding of a single character, as byte values. -/
def utf8Char (c : Char) : List Nat :=
  let n := c.toNat
  if n < 128 then [n]
  else if n < 2048 then [192 + n / 64, 128 + n % 64]
  else if n < 65536 then [224 + n / 4096, 128 + n / 64 % 64, 128 + n % 64]
  else [240 + n / 262144, 128 + n / 4096 % 64, 128 + n / 64 % 64, 128 + n % 64]

/-- UTF-8 bytes of a string (the semantics of Python `str.encode()`). -/
def utf8Bytes (s : String) : List Nat :=
  (s.data.map utf8Char).flatten

/-- SHA-1 hex digest of the UTF-8 bytes of a string:
`hashlib.sha1(s.encode()).hexdigest()`. -/
def sha1HexOfString (s : String) : String := sha1Hex (utf8Bytes s)

/-! ## Decimal printing (the semantics of `print(n)` for a nonnegative integer) -/

/-- Decimal digit character for a value below 10. -/
def digitChar (d : Nat) : Char := Char.ofNat (48 + d)

/-- Big-endian decimal digits of `n`, with fuel (any fuel above `n` suffices). -/
def decDigits : Nat → Nat → List Char
  | 0, _ => []
  | fuel + 1, n =>
      if n < 10 then [digitChar n]
      else decDigits fuel (n / 10) ++ [digitChar (n % 10)]

/-- Decimal string of a natural number. -/
def decRepr (n : Nat) : String := ⟨decDigits (n + 1) n⟩

/-- Output of `print(n)`: the decimal rendering followed by a newline. -/
def printLine (n : Nat) : String := decRepr n ++ "\n"

/-! ## Paths and the filesystem model -/

/-- A filesystem node: regular file, directory, or symbolic link storing its
literal target string. -/
inductive FSNode where
  | file : FSNode
  | dir : FSNode
  | symlink (target : String) : FSNode
deriving DecidableEq

/-- A filesystem: an association list from absolute-ish path strings to nodes.
Earlier bindings shadow later ones; new entries are consed on the front. -/
abbrev FS := List (String × FSNode)

/-- Look up the node stored at path `p`. -/
def fsFind : FS → String → Option FSNode
  | [], _ => none
  | (q, n) :: rest, p => if q = p then some n else fsFind rest p

/-- Whether a path string starts with the separator (is absolute). -/
def startsWithSlash (s : String) : Bool :=
  match s.data with
  | c :: _ => c == '/'
  | [] => false

/-- Whether a character list ends with the separator. -/
def lastIsSlash : List Char → Bool
  | [] => false
  | [c] => c == '/'
  | _ :: c :: rest => lastIsSlash (c :: rest)

/-- Whether a path string ends with the separator. -/
def endsWithSlash (s : String) : Bool := lastIsSlash s.data

/-- The semantics of `os.path.join(a, b)` on POSIX for a single right operand:
an absolute `b` discards `a`; otherwise a separator is inserted unless `a` is
empty or already ends with one. -/
def pathJoin (a b : String) : String :=
  if startsWithSlash b then b
  else if a = "" then b
  else if endsWithSlash a then a ++ b
  else a ++ "/" ++ b

/-- Characters strictly before the last separator, or `none` when there is none. -/
def dirnameAux : List Char → Option (List Char)
  | [] => none
  | c :: cs =>
    match dirnameAux cs with
    | some r => some (c :: r)
    | none => if c = '/' then some [] else none

/-- Directory part of a path (everything before the last separator). -/
def dirname (p : String) : String :=
  match dirnameAux p.data with
  | some r => ⟨r⟩
  | none => ""

/-- Drop leading `./` segments from a relative target. -/
def stripDotSlash : List Char → List Char
  | '.' :: '/' :: rest => stripDotSlash rest
  | l => l

/-- Resolution of a symbolic-link target stored at a link inside directory
`dir`: an absolute target stands alone; a relative target is interpreted
relative to `dir` (this is POSIX symlink semantics), after normalising away
leading `./` segments. -/
def resolveLink (dir t : String) : String :=
  if startsWithSlash t then t else pathJoin dir ⟨stripDotSlash t.data⟩

/-- Existence following symbolic links, with a chain-length budget. -/
def pathExistsFuel : Nat → FS → String → Bool
  | 0, _, _ => false
  | fuel + 1, fs, p =>
    match fsFind fs p with
    | none => false
    | some .file => true
    | some .dir => true
    | some (.symlink t) => pathExistsFuel fuel fs (resolveLink (dirname p) t)

/-- The semantics of `os.path.exists`: follows symbolic links, so a dangling
link reports `false`.  The budget 40 mirrors the kernel's link-chain limit. -/
def pathExists (fs : FS) (p : String) : Bool := pathExistsFuel 40 fs p

/-- Directory test following symbolic links, with a chain-length budget. -/
def isDirFuel : Nat → FS → String → Bool
  | 0, _, _ => false
  | fuel + 1, fs, p =>
    match fsFind fs p with
    | some .dir => true
    | some (.symlink t) => isDirFuel fuel fs (resolveLink (dirname p) t)
    | _ => false

/-- The semantics of `os.path.isdir` (follows symbolic links). -/
def isDir (fs : FS) (p : String) : Bool := isDirFuel 40 fs p

/-- The one error kind the script can raise on the modelled filesystem:
`FileExistsError`, from `os.makedirs` on a non-directory collision or from
`os.symlink` on an occupied link path. -/
inductive OSError where
  | fileExists : OSError
deriving DecidableEq

/-- The semantics of `os.makedirs(p, exist_ok=True)` for the final component
(the script's parent directory necessarily exists, being the directory the
running script resides in): succeed and change nothing when `p` already
resolves to a directory, create the directory when nothing is at `p`, and
raise `FileExistsError` when `p` is occupied by a non-directory. -/
def makedirs (fs : FS) (p : String) : Except OSError FS :=
  match fsFind fs p with
  | none => .ok ((p, .dir) :: fs)
  | some _ => if isDir fs p then .ok fs else .error .fileExists

/-- The semantics of `os.symlink(target, linkPath)`: raise `FileExistsError`
when anything (even a dangling link) occupies `linkPath`, else record a link
node storing the literal target string. -/
def symlink (fs : FS) (target linkPath : String) : Except OSError FS :=
  match fsFind fs linkPath with
  | some _ => .error .fileExists
  | none => .ok ((linkPath, .symlink target) :: fs)

/-! ## The tokenizer (external library, modelled from the spec) -/

/-- A byte-pair merge-rank table: adjacent token pair to merged token id
(in tiktoken the id doubles as the merge priority, lower merging first). -/
abbrev Ranks := List ((Nat × Nat) × Nat)

/-- Rank of an adjacent pair, when the table merges it. -/
def pairRank (ranks : Ranks) (p : Nat × Nat) : Option Nat :=
  match ranks with
  | [] => none
  | (q, r) :: rest => if q = p then some r else pairRank rest p

/-- Position and rank of the best-ranked adjacent mergeable pair at or after
position `i`, preferring the leftmost among equals. -/
def bestPairAux (ranks : Ranks) : List Nat → Nat → Option (Nat × Nat)
  | x :: y :: rest, i =>
    let best := bestPairAux ranks (y :: rest) (i + 1)
    match pairRank ranks (x, y) with
    | none => best
    | some r =>
      match best with
      | none => some (i, r)
      | some (j, r2) => if r ≤ r2 then some (i, r) else some (j, r2)
  | _, _ => none

/-- Replace the adjacent pair at position `i` by the merged token id. -/
def mergeAt : List Nat → Nat → Nat → List Nat
  | _ :: _ :: rest, 0, m => m :: rest
  | x :: rest, i + 1, m => x :: mergeAt rest i m
  | l, _, _ => l

/-- Repeatedly merge the best-ranked adjacent pair until none remains. -/
def bpeLoop (ranks : Ranks) : Nat → List Nat → List Nat
  | 0, toks => toks
  | fuel + 1, toks =>
    match bestPairAux ranks toks 0 with
    | none => toks
    | some (i, r) => bpeLoop ranks fuel (mergeAt toks i r)

/-- Modelled from the spec: the external `tiktoken` library (absent from
src/) "exposes an operation to convert an arbitrary input string into a
sequence of integer token identifiers" by byte-pair encoding; we model it as
the greedy merge loop over the UTF-8 bytes of the input, parameterised by the
vocabulary's merge-rank table. -/
def encode (ranks : Ranks) (s : String) : List Nat :=
  bpeLoop ranks (utf8Bytes s).length (utf8Bytes s)

/-- Token count of a string: the length of its token-id sequence. -/
def tokenCount (ranks : Ranks) (s : String) : Nat := (encode ranks s).length

/-! ## The script itself -/

/-- Line 12 of the script: the fixed vocabulary-download URL. -/
def blobpath : String :=
  "https://openaipublic.blob.core.windows.net/encodings/cl100k_base.tiktoken"

/-- Line 13: `cache_key = hashlib.sha1(blobpath.encode()).hexdigest()`. -/
def cache_key : String := sha1HexOfString blobpath

/-- Line 8: `cache_dir = os.path.join(script_dir, "cache")`, as a function of
the script's own directory. -/
def cache_dir (script_dir : String) : String := pathJoin script_dir "cache"

/-- Line 15: `link_path = os.path.join(cache_dir, cache_key)`. -/
def link_path (script_dir : String) : String :=
  pathJoin (cache_dir script_dir) cache_key

/-- Line 16: `target_path = "./cl100k_base.tiktoken"`. -/
def target_path : String := "./cl100k_base.tiktoken"

/-- The whole script as a state transformer: create the cache directory
(line 9), create the cache symlink when `os.path.exists` reports nothing at
the key (lines 18-19), then print the token count of the standard input
(line 23).  The result is the final filesystem together with the complete
standard output; an uncaught `OSError` aborts the run.  Setting the
`TIKTOKEN_CACHE_DIR` environment variable (line 10) only directs the external
library at the same `cache_dir` and is not otherwise modelled.

The run is split in two definitions: `runAfterMakedirs` is lines 18-23 of the
script (conditional link creation, then the print), and `run` prefixes it
with the directory creation of line 9. -/
def runAfterMakedirs (ranks : Ranks) (script_dir : String) (fs1 : FS)
    (input : String) : Except OSError (FS × String) :=
  if pathExists fs1 (link_path script_dir) then
    .ok (fs1, printLine (tokenCount ranks input))
  else
    match symlink fs1 target_path (link_path script_dir) with
    | .error e => .error e
    | .ok fs2 => .ok (fs2, printLine (tokenCount ranks input))

def run (ranks : Ranks) (script_dir : String) (fs : FS) (input : String) :
    Except OSError (FS × String) :=
  match makedirs fs (cache_dir script_dir) with
  | .error e => .error e
  | .ok fs1 => runAfterMakedirs ranks script_dir fs1 input

/-- Process exit status: 0 on success, 1 when an uncaught exception aborts
the interpreter. -/
def exitCode (r : Except OSError (FS × String)) : Nat :=
  match r with
  | .ok _ => 0
  | .error _ => 1

/-- Lowercase-hexadecimal character test. -/
def isHexLowerChar (c : Char) : Bool :=
  (48 ≤ c.toNat && c.toNat ≤ 57) || (97 ≤ c.toNat && c.toNat ≤ 102)

/-- Boolean list-prefix test. -/
def listIsPrefix : List Char → List Char → Bool
  | [], _ => true
  | _ :: _, [] => false
  | c :: cs, d :: ds => c == d && listIsPrefix cs ds

/-- Strict containment of one path inside a directory: `d ++ "/"` is a
proper prefix of the path. -/
def isUnder (d p : String) : Bool := listIsPrefix (d ++ "/").data p.data

/-- A filesystem whose cache directory holds a dangling alias under the
cache key: the link's target `./cl100k_base.tiktoken` resolves inside the
cache directory, where no file exists. -/
def fsBroken : FS :=
  [(cache_dir "/s", FSNode.dir), (link_path "/s", FSNode.symlink target_path)]

/-- A primed filesystem: cache directory, alias under the cache key, and the
vocabulary file present at the alias's resolution inside the cache
directory, so the alias is valid. -/
def fsPrimed : FS :=
  [(cache_dir "/s", FSNode.dir), (link_path "/s", FSNode.symlink target_path),
   (cache_dir "/s" ++ "/" ++ "cl100k_base.tiktoken", FSNode.file)]

/-- The filesystem produced by a run that starts from an empty filesystem. -/
def fsAfterClean : FS :=
  [(link_path "/s", FSNode.symlink target_path), (cache_dir "/s", FSNode.dir)]

/-- A filesystem holding only the cache directory. -/
def fsDirOnly : FS := [(cache_dir "/s", FSNode.dir)]

/-- A filesystem where a regular file occupies the cache directory's path. -/
def fsCollide : FS := [(cache_dir "/s", FSNode.file)]

/-- Number of filesystem bindings whose path lies strictly inside directory
`d`. -/
def countUnder (fs : FS) (d : String) : Nat :=
  (fs.filter (fun e => isUnder d e.1)).length

/-- Boolean membership of a character in a character list. -/
def containsChar : List Char → Char → Bool
  | [], _ => false
  | d :: ds, c => (d == c) || containsChar ds c

deriving instance DecidableEq for Except

set_option maxRecDepth 100000

/-! ## Helper lemmas: strings, hex digests, decimal digits -/

theorem str_data_append (a b : String) : (a ++ b).data = a.data ++ b.data := rfl

theorem str_ne_of_len (a b : String) (h : a.data.length ≠ b.data.length) :
    a ≠ b := fun he => h (by rw [he])

theorem bytesHex_length (bs : List Nat) : (bytesHex bs).length = 2 * bs.length := by
  induction bs with
  | nil => rfl
  | cons b bs ih => simp [bytesHex, ih]; omega

theorem sha1Bytes_length (msg : List Nat) : (sha1Bytes msg).length = 20 := by
  unfold sha1Bytes
  rcases sha1Words msg with ⟨h0, h1, h2, h3, h4⟩
  simp [wordBytes]

theorem sha1Bytes_lt (msg : List Nat) : ∀ b ∈ sha1Bytes msg, b < 256 := by
  unfold sha1Bytes
  rcases sha1Words msg with ⟨h0, h1, h2, h3, h4⟩
  simp [wordBytes]
  omega

theorem hexChar_hex (d : Nat) (h : d < 16) : isHexLowerChar (hexChar d) = true := by
  interval_cases d <;> decide

theorem bytesHex_hex (bs : List Nat) (h : ∀ b ∈ bs, b < 256) :
    ∀ c ∈ bytesHex bs, isHexLowerChar c = true := by
  induction bs with
  | nil => intro c hc; cases hc
  | cons b bs ih =>
    intro c hc
    have hb : b < 256 := h b (by simp)
    simp only [bytesHex, List.mem_cons] at hc
    rcases hc with hc | hc | hc
    · rw [hc]; exact hexChar_hex _ (by omega)
    · rw [hc]; exact hexChar_hex _ (by omega)
    · exact ih (fun x hx => h x (by simp [hx])) c hc

theorem sha1Hex_data_length (msg : List Nat) : (sha1Hex msg).data.length = 40 := by
  show (bytesHex (sha1Bytes msg)).length = 40
  rw [bytesHex_length, sha1Bytes_length]

theorem sha1Hex_hex (msg : List Nat) :
    ∀ c ∈ (sha1Hex msg).data, isHexLowerChar c = true := by
  show ∀ c ∈ bytesHex (sha1Bytes msg), isHexLowerChar c = true
  exact bytesHex_hex _ (sha1Bytes_lt msg)

theorem hex_no_slash (l : List Char) (h : ∀ c ∈ l, isHexLowerChar c = true) :
    ¬ '/' ∈ l := fun hm => by have := h _ hm; exact absurd this (by decide)

theorem hex_not_abs (s : String) (h : ∀ c ∈ s.data, isHexLowerChar c = true) :
    startsWithSlash s = false := by
  unfold startsWithSlash
  cases hd : s.data with
  | nil => rfl
  | cons c rest =>
    have hc : isHexLowerChar c = true := h c (by rw [hd]; simp)
    have : c ≠ '/' := fun he => by rw [he] at hc; exact absurd hc (by decide)
    simp [this]

theorem digitChar_isDigit (d : Nat) (h : d < 10) : (digitChar d).isDigit = true := by
  interval_cases d <;> decide

theorem decDigits_digits (fuel : Nat) :
    ∀ n, ∀ c ∈ decDigits fuel n, c.isDigit = true := by
  induction fuel with
  | zero => intro n c hc; cases hc
  | succ fuel ih =>
    intro n c hc
    unfold decDigits at hc
    by_cases hn : n < 10
    · rw [if_pos hn, List.mem_singleton] at hc
      rw [hc]; exact digitChar_isDigit _ hn
    · rw [if_neg hn] at hc
      rcases List.mem_append.mp hc with hc | hc
      · exact ih _ c hc
      · rw [List.mem_singleton] at hc
        rw [hc]; exact digitChar_isDigit _ (Nat.mod_lt _ (by omega))

theorem decDigits_ne_nil (n : Nat) : decDigits (n + 1) n ≠ [] := by
  unfold decDigits
  by_cases hn : n < 10
  · simp [hn]
  · simp [hn]

theorem decRepr_digits (n : Nat) : ∀ c ∈ (decRepr n).data, c.isDigit = true :=
  decDigits_digits (n + 1) n

theorem decRepr_ne_nil (n : Nat) : (decRepr n).data ≠ [] := decDigits_ne_nil n

theorem decRepr_no_newline (n : Nat) : ¬ '\n' ∈ (decRepr n).data := by
  intro hm
  have := decRepr_digits n _ hm
  exact absurd this (by decide)

/-! ## Helper lemmas: paths -/

theorem lastIsSlash_append_cache (l : List Char) :
    lastIsSlash (l ++ ['c', 'a', 'c', 'h', 'e']) = false := by
  induction l with
  | nil => decide
  | cons x l ih =>
    cases l with
    | nil => simp [lastIsSlash]
    | cons y ys => simpa [lastIsSlash] using ih

theorem str_ne_empty_of_data (s : String) (h : s.data ≠ []) : s ≠ "" := by
  intro he
  rw [he] at h
  exact h rfl

theorem cache_dir_props (sd : String) :
    cache_dir sd ≠ "" ∧ endsWithSlash (cache_dir sd) = false := by
  unfold cache_dir pathJoin
  rw [show startsWithSlash "cache" = false from rfl, if_neg (by simp)]
  by_cases hsd : sd = ""
  · rw [if_pos hsd]; exact ⟨by decide, by decide⟩
  · rw [if_neg hsd]
    by_cases hes : endsWithSlash sd = true
    · rw [if_pos hes]
      constructor
      · apply str_ne_empty_of_data
        rw [str_data_append]
        simp [show ("cache" : String).data = ['c','a','c','h','e'] from rfl]
      · show lastIsSlash (sd ++ "cache").data = false
        rw [str_data_append]
        exact lastIsSlash_append_cache sd.data
    · rw [if_neg hes]
      constructor
      · apply str_ne_empty_of_data
        rw [str_data_append, str_data_append]
        simp [show ("cache" : String).data = ['c','a','c','h','e'] from rfl]
      · show lastIsSlash (sd ++ "/" ++ "cache").data = false
        rw [str_data_append]
        exact lastIsSlash_append_cache (sd ++ "/").data

theorem pathJoin_sep (a b : String) (hb : startsWithSlash b = false)
    (ha1 : a ≠ "") (ha2 : endsWithSlash a = false) :
    pathJoin a b = a ++ "/" ++ b := by
  unfold pathJoin
  rw [hb, if_neg (by simp), if_neg ha1, ha2, if_neg (by simp)]

theorem cacheKey_hex : ∀ c ∈ cache_key.data, isHexLowerChar c = true :=
  sha1Hex_hex (utf8Bytes blobpath)

theorem cacheKey_data_length : cache_key.data.length = 40 :=
  sha1Hex_data_length (utf8Bytes blobpath)

theorem link_path_eq (sd : String) :
    link_path sd = cache_dir sd ++ "/" ++ cache_key := by
  unfold link_path
  exact pathJoin_sep _ _ (hex_not_abs _ cacheKey_hex)
    (cache_dir_props sd).1 (cache_dir_props sd).2

theorem isPrefixOf_append_self (l k : List Char) :
    listIsPrefix l (l ++ k) = true := by
  induction l with
  | nil => rfl
  | cons c l ih => simp [listIsPrefix, ih]

theorem isPrefixOf_length_le (l m : List Char) (h : listIsPrefix l m = true) :
    l.length ≤ m.length := by
  induction l generalizing m with
  | nil => simp
  | cons c l ih =>
    cases m with
    | nil => simp [listIsPrefix] at h
    | cons d m =>
      simp only [listIsPrefix, Bool.and_eq_true] at h
      have := ih m h.2
      simp; omega

theorem isUnder_link_path (sd : String) :
    isUnder (cache_dir sd) (link_path sd) = true := by
  unfold isUnder
  rw [link_path_eq, show cache_dir sd ++ "/" ++ cache_key
    = (cache_dir sd ++ "/") ++ cache_key from rfl, str_data_append]
  exact isPrefixOf_append_self _ _

theorem isUnder_ne (d p : String) (h : isUnder d p = true) : p ≠ d := by
  unfold isUnder at h
  have hle := isPrefixOf_length_le _ _ h
  rw [str_data_append, List.length_append] at hle
  apply str_ne_of_len
  have h1 : ("/" : String).data.length = 1 := rfl
  omega

theorem link_path_ne_cache_dir (sd : String) : link_path sd ≠ cache_dir sd :=
  isUnder_ne _ _ (isUnder_link_path sd)

/-! ## Helper lemmas: filesystem operations -/

theorem fsFind_cons (q : String) (n : FSNode) (fs : FS) (p : String) :
    fsFind ((q, n) :: fs) p = if q = p then some n else fsFind fs p := rfl

theorem pathExistsFuel_succ (f : Nat) (fs : FS) (p : String) :
    pathExistsFuel (f + 1) fs p =
      (match fsFind fs p with
       | none => false
       | some .file => true
       | some .dir => true
       | some (.symlink t) => pathExistsFuel f fs (resolveLink (dirname p) t)) := rfl

theorem isDirFuel_succ (f : Nat) (fs : FS) (p : String) :
    isDirFuel (f + 1) fs p =
      (match fsFind fs p with
       | some .dir => true
       | some (.symlink t) => isDirFuel f fs (resolveLink (dirname p) t)
       | _ => false) := rfl

theorem pathExists_of_none (fs : FS) (p : String) (h : fsFind fs p = none) :
    pathExists fs p = false := by
  show pathExistsFuel (39 + 1) fs p = false
  rw [pathExistsFuel_succ, h]

theorem isDir_of_dir (fs : FS) (p : String) (h : fsFind fs p = some .dir) :
    isDir fs p = true := by
  show isDirFuel (39 + 1) fs p = true
  rw [isDirFuel_succ, h]

theorem isDir_find_some (fs : FS) (p : String) (h : isDir fs p = true) :
    ∃ n, fsFind fs p = some n := by
  have h40 : isDirFuel (39 + 1) fs p = true := h
  rw [isDirFuel_succ] at h40
  cases hf : fsFind fs p with
  | none => rw [hf] at h40; cases h40
  | some n => exact ⟨n, rfl⟩

theorem makedirs_of_isDir (fs : FS) (p : String) (h : isDir fs p = true) :
    makedirs fs p = .ok fs := by
  obtain ⟨n, hn⟩ := isDir_find_some fs p h
  unfold makedirs
  rw [hn, if_pos h]

theorem makedirs_ok_isDir (fs fs' : FS) (p : String)
    (h : makedirs fs p = .ok fs') : isDir fs' p = true := by
  unfold makedirs at h
  cases hf : fsFind fs p with
  | none =>
    rw [hf] at h
    cases h
    exact isDir_of_dir _ _ (by rw [fsFind_cons, if_pos rfl])
  | some n =>
    rw [hf] at h
    by_cases hd : isDir fs p = true
    · rw [if_pos hd] at h
      cases h
      exact hd
    · rw [if_neg hd] at h
      cases h

theorem makedirs_ok_le (fs fs' : FS) (p : String)
    (h : makedirs fs p = .ok fs') : fs' = fs ∨ fs' = (p, .dir) :: fs := by
  unfold makedirs at h
  cases hf : fsFind fs p with
  | none => rw [hf] at h; cases h; right; rfl
  | some n =>
    rw [hf] at h
    by_cases hd : isDir fs p = true
    · rw [if_pos hd] at h; cases h; left; rfl
    · rw [if_neg hd] at h; cases h

theorem isDirFuel_cons_of_none (f : Nat) (fs : FS) (q : String) (n : FSNode) :
    ∀ p, fsFind fs q = none → isDirFuel f fs p = true →
      isDirFuel f ((q, n) :: fs) p = true := by
  induction f with
  | zero => intro p _ h; cases h
  | succ f ih =>
    intro p hq h
    rw [isDirFuel_succ] at h ⊢
    rw [fsFind_cons]
    by_cases hqp : q = p
    · rw [← hqp, hq] at h; cases h
    · rw [if_neg hqp]
      cases hf : fsFind fs p with
      | none => rw [hf] at h; cases h
      | some m =>
        rw [hf] at h
        cases m with
        | file => cases h
        | dir => rfl
        | symlink t => exact ih _ hq h

theorem isDir_cons_of_none (fs : FS) (q : String) (n : FSNode) (p : String)
    (hq : fsFind fs q = none) (h : isDir fs p = true) :
    isDir ((q, n) :: fs) p = true :=
  isDirFuel_cons_of_none 40 fs q n p hq h

theorem run_primed (ranks : Ranks) (sd : String) (fs : FS) (input : String)
    (hdir : isDir fs (cache_dir sd) = true)
    (hex : pathExists fs (link_path sd) = true) :
    run ranks sd fs input = .ok (fs, printLine (tokenCount ranks input)) := by
  unfold run
  rw [makedirs_of_isDir _ _ hdir]
  show runAfterMakedirs ranks sd fs input = _
  unfold runAfterMakedirs
  rw [hex]
  simp

theorem run_clean (ranks : Ranks) (sd : String) (fs : FS) (input : String)
    (hcd : fsFind fs (cache_dir sd) = none)
    (hlp : fsFind fs (link_path sd) = none) :
    run ranks sd fs input =
      .ok ((link_path sd, .symlink target_path) :: (cache_dir sd, .dir) :: fs,
           printLine (tokenCount ranks input)) := by
  unfold run
  rw [show makedirs fs (cache_dir sd) = .ok ((cache_dir sd, .dir) :: fs) by
    unfold makedirs; rw [hcd]]
  have hlp2 : fsFind ((cache_dir sd, FSNode.dir) :: fs) (link_path sd) = none := by
    rw [fsFind_cons, if_neg (fun he => link_path_ne_cache_dir sd he.symm), hlp]
  have hs : symlink ((cache_dir sd, FSNode.dir) :: fs) target_path (link_path sd)
      = .ok ((link_path sd, FSNode.symlink target_path)
          :: (cache_dir sd, FSNode.dir) :: fs) := by
    unfold symlink
    rw [hlp2]
  show runAfterMakedirs ranks sd ((cache_dir sd, FSNode.dir) :: fs) input = _
  unfold runAfterMakedirs
  rw [pathExists_of_none _ _ hlp2, hs]
  simp

theorem run_ok_out (ranks : Ranks) (sd : String) (fs fs' : FS)
    (input out : String) (h : run ranks sd fs input = .ok (fs', out)) :
    out = printLine (tokenCount ranks input) := by
  unfold run at h
  split at h
  · cases h
  · unfold runAfterMakedirs at h
    split at h
    · cases h
      rfl
    · split at h
      · cases h
      · cases h
        rfl

theorem run_ok_isDir (ranks : Ranks) (sd : String) (fs fs' : FS)
    (input out : String) (h : run ranks sd fs input = .ok (fs', out)) :
    isDir fs' (cache_dir sd) = true := by
  unfold run at h
  split at h
  · cases h
  · rename_i fs1 heq
    have hg := makedirs_ok_isDir _ _ _ heq
    unfold runAfterMakedirs at h
    split at h
    · cases h
      exact hg
    · split at h
      · cases h
      · rename_i fs2 heq2
        cases h
        unfold symlink at heq2
        split at heq2
        · cases heq2
        · rename_i heq3
          cases heq2
          exact isDir_cons_of_none _ _ _ _ heq3 hg

/-! ## Helper lemmas: dirname and symlink-target resolution -/

theorem dirnameAux_no_slash (l : List Char) (h : ¬ '/' ∈ l) :
    dirnameAux l = none := by
  induction l with
  | nil => rfl
  | cons c cs ih =>
    unfold dirnameAux
    rw [ih (fun hm => h (by simp [hm]))]
    have hc : c ≠ '/' := fun he => h (by rw [he]; simp)
    simp [hc]

theorem dirnameAux_append (l k : List Char) (h : ¬ '/' ∈ k) :
    dirnameAux (l ++ '/' :: k) = some l := by
  induction l with
  | nil =>
    show dirnameAux ('/' :: k) = some []
    unfold dirnameAux
    rw [dirnameAux_no_slash k h]
    simp
  | cons c cs ih =>
    show dirnameAux (c :: (cs ++ '/' :: k)) = some (c :: cs)
    unfold dirnameAux
    rw [ih]

theorem cache_key_no_slash : ¬ '/' ∈ cache_key.data :=
  hex_no_slash _ cacheKey_hex

theorem dirname_link_path (sd : String) :
    dirname (link_path sd) = cache_dir sd := by
  rw [link_path_eq]
  unfold dirname
  rw [show (cache_dir sd ++ "/" ++ cache_key).data
      = (cache_dir sd).data ++ '/' :: cache_key.data by
    rw [str_data_append, str_data_append, List.append_assoc]
    rfl]
  rw [dirnameAux_append _ _ cache_key_no_slash]

theorem resolveLink_target (sd : String) :
    resolveLink (cache_dir sd) target_path
      = cache_dir sd ++ "/" ++ "cl100k_base.tiktoken" := by
  unfold resolveLink
  rw [show startsWithSlash target_path = false from rfl]
  rw [show (⟨stripDotSlash target_path.data⟩ : String)
      = "cl100k_base.tiktoken" from rfl]
  simp only [Bool.false_eq_true, if_false]
  exact pathJoin_sep _ _ (by decide) (cache_dir_props sd).1 (cache_dir_props sd).2

theorem pathJoin_len_le (a b : String) (hb : startsWithSlash b = false) :
    (pathJoin a b).data.length ≤ a.data.length + 1 + b.data.length := by
  unfold pathJoin
  rw [hb]
  simp only [Bool.false_eq_true, if_false]
  by_cases ha : a = ""
  · rw [if_pos ha]
    omega
  · rw [if_neg ha]
    by_cases he : endsWithSlash a = true
    · rw [if_pos he, str_data_append, List.length_append]
      omega
    · rw [if_neg he, str_data_append, str_data_append, List.length_append,
        List.length_append]
      have h1 : ("/" : String).data.length = 1 := rfl
      omega

theorem cache_dir_len_ge (sd : String) :
    sd.data.length + 5 ≤ (cache_dir sd).data.length := by
  unfold cache_dir pathJoin
  rw [show startsWithSlash "cache" = false from rfl]
  simp only [Bool.false_eq_true, if_false]
  by_cases ha : sd = ""
  · rw [if_pos ha, ha]
    decide
  · rw [if_neg ha]
    have h5 : ("cache" : String).data.length = 5 := rfl
    by_cases he : endsWithSlash sd = true
    · rw [if_pos he, str_data_append, List.length_append]
      omega
    · rw [if_neg he, str_data_append, str_data_append, List.length_append,
        List.length_append]
      have h1 : ("/" : String).data.length = 1 := rfl
      omega

theorem resolved_target_ne_tool_dir (sd : String) :
    cache_dir sd ++ "/" ++ "cl100k_base.tiktoken"
      ≠ pathJoin sd "cl100k_base.tiktoken" := by
  apply str_ne_of_len
  have hle := pathJoin_len_le sd "cl100k_base.tiktoken" (by decide)
  have hge := cache_dir_len_ge sd
  rw [str_data_append, str_data_append, List.length_append, List.length_append]
  have h1 : ("/" : String).data.length = 1 := rfl
  have h20 : ("cl100k_base.tiktoken" : String).data.length = 20 := rfl
  omega

/-! ## Helper lemmas: Boolean membership, emptiness, input-independence -/

theorem containsChar_eq_false_of_not_mem (l : List Char) (c : Char)
    (h : ¬ c ∈ l) : containsChar l c = false := by
  induction l with
  | nil => rfl
  | cons d ds ih =>
    unfold containsChar
    have hd : d ≠ c := fun he => h (by rw [← he]; simp)
    rw [beq_eq_false_iff_ne.mpr hd, ih (fun hm => h (by simp [hm]))]
    rfl

theorem decRepr_not_empty (n : Nat) : (decRepr n).data.isEmpty = false := by
  cases hl : (decRepr n).data with
  | nil => exact absurd hl (decRepr_ne_nil n)
  | cons c l => rfl

theorem decRepr_all_digits (n : Nat) :
    (decRepr n).data.all Char.isDigit = true :=
  List.all_eq_true.mpr (decRepr_digits n)

theorem decRepr_contains_no_newline (n : Nat) :
    containsChar (decRepr n).data '\n' = false :=
  containsChar_eq_false_of_not_mem _ _ (decRepr_no_newline n)

theorem run_ok_any_input (ranks : Ranks) (sd : String) (fs fs' : FS)
    (input input2 out : String)
    (h : run ranks sd fs input = .ok (fs', out)) :
    run ranks sd fs input2 = .ok (fs', printLine (tokenCount ranks input2)) := by
  unfold run at h ⊢
  split at h
  · cases h
  · rename_i fs1 heq
    unfold runAfterMakedirs at h ⊢
    split at h
    · rename_i hp
      cases h
      simp [hp]
    · rename_i hp
      split at h
      · cases h
      · rename_i fs2 heq2
        cases h
        simp only [hp, Bool.false_eq_true, if_false, heq2]

/-! ## Claim theorems -/

/-- C2: the cache key is a pure, deterministic function of the URL string —
the SHA-1 digest of the UTF-8 bytes of the fixed vocabulary URL rendered as
lowercase hexadecimal — and for that URL it is the fixed 40-character
hexadecimal constant `9b5ad71b2ce5302211f9c61530b329a4922fc6a4`. -/
theorem cacheKeyFixedConstant :
    cache_key = sha1HexOfString blobpath ∧
    cache_key = "9b5ad71b2ce5302211f9c61530b329a4922fc6a4" ∧
    cache_key.length = 40 ∧
    cache_key.data.all isHexLowerChar = true := by
  have h : cache_key = "9b5ad71b2ce5302211f9c61530b329a4922fc6a4" := by decide
  refine ⟨rfl, h, ?_, ?_⟩
  · rw [h]; decide
  · rw [h]; decide

/-- C10: for every URL string the computed cache key consists of exactly 40
lowercase hexadecimal characters and contains no path separator, so joining
it to the cache directory appends exactly one separator and the alias path
is a direct child of the cache directory. -/
theorem cacheKeyShapeDirectChild (url sd : String) :
    (sha1HexOfString url).length = 40 ∧
    (sha1HexOfString url).data.all isHexLowerChar = true ∧
    containsChar (sha1HexOfString url).data '/' = false ∧
    pathJoin (cache_dir sd) (sha1HexOfString url)
      = cache_dir sd ++ "/" ++ sha1HexOfString url ∧
    isUnder (cache_dir sd) (pathJoin (cache_dir sd) (sha1HexOfString url)) = true := by
  have hhex := sha1Hex_hex (utf8Bytes url)
  have hjoin : pathJoin (cache_dir sd) (sha1HexOfString url)
      = cache_dir sd ++ "/" ++ sha1HexOfString url :=
    pathJoin_sep _ _ (hex_not_abs _ hhex) (cache_dir_props sd).1 (cache_dir_props sd).2
  refine ⟨sha1Hex_data_length _, List.all_eq_true.mpr hhex,
    containsChar_eq_false_of_not_mem _ _ (hex_no_slash _ hhex), hjoin, ?_⟩
  rw [hjoin]
  unfold isUnder
  rw [show cache_dir sd ++ "/" ++ sha1HexOfString url
      = (cache_dir sd ++ "/") ++ sha1HexOfString url from rfl, str_data_append]
  exact isPrefixOf_append_self _ _

/-- C8: for a fixed input string and vocabulary the reported output is
deterministic — any two successful runs on the same standard input, from any
filesystem states and install locations, print the same text. -/
theorem outputDeterministicAcrossRuns (ranks : Ranks) (sd1 sd2 : String)
    (fs1 fs2 g1 g2 : FS) (input out1 out2 : String)
    (h1 : run ranks sd1 fs1 input = .ok (g1, out1))
    (h2 : run ranks sd2 fs2 input = .ok (g2, out2)) : out1 = out2 := by
  rw [run_ok_out _ _ _ _ _ _ h1, run_ok_out _ _ _ _ _ _ h2]

theorem outputDeterministicAcrossRuns_witness :
    ("2\n" : String) = printLine (tokenCount [] "hi") :=
  outputDeterministicAcrossRuns [] "/s" "/s" [] fsPrimed fsAfterClean fsPrimed
    "hi" "2\n" (printLine (tokenCount [] "hi")) (by decide) (by decide)

/-- C9: on every successful run the entire standard output is the decimal
token count followed by a newline — a single nonempty line of digits with no
internal newline — and the process exit status is 0. -/
theorem outputSingleLineExitZero (ranks : Ranks) (sd : String) (fs fs' : FS)
    (input out : String) (h : run ranks sd fs input = .ok (fs', out)) :
    exitCode (run ranks sd fs input) = 0 ∧
    out = decRepr (tokenCount ranks input) ++ "\n" ∧
    (decRepr (tokenCount ranks input)).data.isEmpty = false ∧
    (decRepr (tokenCount ranks input)).data.all Char.isDigit = true ∧
    containsChar (decRepr (tokenCount ranks input)).data '\n' = false :=
  ⟨by rw [h]; rfl, run_ok_out _ _ _ _ _ _ h, decRepr_not_empty _,
    decRepr_all_digits _, decRepr_contains_no_newline _⟩

theorem outputSingleLineExitZero_witness :
    exitCode (run [] "/s" [] "hi") = 0 ∧
    ("2\n" : String) = decRepr (tokenCount [] "hi") ++ "\n" ∧
    (decRepr (tokenCount [] "hi")).data.isEmpty = false ∧
    (decRepr (tokenCount [] "hi")).data.all Char.isDigit = true ∧
    containsChar (decRepr (tokenCount [] "hi")).data '\n' = false :=
  outputSingleLineExitZero [] "/s" [] fsAfterClean "hi" "2\n" (by decide)

/-- C7: empty standard input is not an error — whenever a run succeeds on
some input it also succeeds on the empty input, with the same filesystem
effect — and the printed count for empty input is 0. -/
theorem emptyInputNotErrorZero (ranks : Ranks) (sd : String) (fs fs' : FS)
    (input out : String) (h : run ranks sd fs input = .ok (fs', out)) :
    run ranks sd fs "" = .ok (fs', "0\n") ∧ tokenCount ranks "" = 0 :=
  ⟨run_ok_any_input ranks sd fs fs' input "" out h, rfl⟩

theorem emptyInputNotErrorZero_witness :
    run [] "/s" [] "" = .ok (fsAfterClean, "0\n") ∧ tokenCount [] "" = 0 :=
  emptyInputNotErrorZero [] "/s" [] fsAfterClean "hi" "2\n" (by decide)

theorem isUnder_self_false (d : String) : isUnder d d = false := by
  cases hu : isUnder d d with
  | true => exact absurd rfl (isUnder_ne d d hu)
  | false => rfl

theorem countUnder_zero_find (fs : FS) (d p : String)
    (hc : countUnder fs d = 0) (hp : isUnder d p = true) :
    fsFind fs p = none := by
  induction fs with
  | nil => rfl
  | cons e fs ih =>
    rcases e with ⟨q, n⟩
    unfold countUnder at hc
    by_cases hq : isUnder d q = true
    · rw [List.filter_cons_of_pos (by simpa using hq)] at hc
      simp at hc
    · rw [List.filter_cons_of_neg (by simpa using hq)] at hc
      rw [fsFind_cons, if_neg (fun he => hq (by rw [he]; exact hp))]
      exact ih hc

theorem countUnder_after_clean (fs : FS) (sd : String)
    (hc : countUnder fs (cache_dir sd) = 0) :
    countUnder ((link_path sd, FSNode.symlink target_path)
        :: (cache_dir sd, FSNode.dir) :: fs) (cache_dir sd) = 1 := by
  unfold countUnder at hc ⊢
  rw [List.filter_cons_of_pos (by simpa using isUnder_link_path sd),
    List.filter_cons_of_neg (by simpa using isUnder_self_false (cache_dir sd))]
  simp [hc]

/-- C4: with the cache already primed (the alias entry present and its
existence reported), a further run returns the very same filesystem and the
same output as the run before it: the alias is neither re-created nor
altered, and the printed text is identical. -/
theorem runIdempotentWhenPrimed (ranks : Ranks) (sd : String) (fs fs1 : FS)
    (input out1 : String)
    (h1 : run ranks sd fs input = .ok (fs1, out1))
    (h2 : pathExists fs1 (link_path sd) = true) :
    run ranks sd fs1 input = .ok (fs1, out1) := by
  have hd := run_ok_isDir _ _ _ _ _ _ h1
  have ho := run_ok_out _ _ _ _ _ _ h1
  rw [run_primed ranks sd fs1 input hd h2, ho]

theorem runIdempotentWhenPrimed_witness :
    run [] "/s" fsPrimed "hi" = .ok (fsPrimed, "2\n") :=
  runIdempotentWhenPrimed [] "/s" fsPrimed fsPrimed "hi" "2\n"
    (by decide) (by decide)

/-- C5: starting from any filesystem with no cache directory and no entry
below it, the run succeeds, the cache directory afterwards exists, and it
contains exactly one entry: the alias named by the cache key. -/
theorem cleanRunCreatesSingleAlias (ranks : Ranks) (sd : String) (fs : FS)
    (input : String)
    (hcd : fsFind fs (cache_dir sd) = none)
    (hc : countUnder fs (cache_dir sd) = 0) :
    run ranks sd fs input =
      .ok ((link_path sd, .symlink target_path) :: (cache_dir sd, .dir) :: fs,
           printLine (tokenCount ranks input)) ∧
    isDir ((link_path sd, FSNode.symlink target_path)
        :: (cache_dir sd, FSNode.dir) :: fs) (cache_dir sd) = true ∧
    fsFind ((link_path sd, FSNode.symlink target_path)
        :: (cache_dir sd, FSNode.dir) :: fs) (link_path sd)
      = some (.symlink target_path) ∧
    countUnder ((link_path sd, FSNode.symlink target_path)
        :: (cache_dir sd, FSNode.dir) :: fs) (cache_dir sd) = 1 := by
  have hlp : fsFind fs (link_path sd) = none :=
    countUnder_zero_find fs _ _ hc (isUnder_link_path sd)
  refine ⟨run_clean ranks sd fs input hcd hlp, ?_, ?_,
    countUnder_after_clean fs sd hc⟩
  · apply isDir_of_dir
    rw [fsFind_cons, if_neg (link_path_ne_cache_dir sd), fsFind_cons, if_pos rfl]
  · rw [fsFind_cons, if_pos rfl]

theorem cleanRunCreatesSingleAlias_witness :
    run [] "/s" [] "x" = .ok (fsAfterClean, "1\n") ∧
    isDir fsAfterClean (cache_dir "/s") = true ∧
    fsFind fsAfterClean (link_path "/s") = some (.symlink target_path) ∧
    countUnder fsAfterClean (cache_dir "/s") = 1 :=
  cleanRunCreatesSingleAlias [] "/s" [] "x" rfl rfl

/-- C1 (amended): when the cache directory already holds an entry under the
expected key and the existence check reports it (any entry that is not a
dangling alias), the run creates no link, overwrites nothing, leaves the
filesystem exactly as it was, and does not error; but when the entry is a
dangling alias, `os.path.exists` follows it and reports `false`, so the run
attempts `os.symlink` on the occupied path and aborts with a file-exists
error rather than leaving the entry alone. -/
theorem existingEntryNoOverwrite (ranks : Ranks) (sd : String) (fs : FS)
    (input : String) (n : FSNode)
    (hdir : isDir fs (cache_dir sd) = true)
    (hn : fsFind fs (link_path sd) = some n) :
    (pathExists fs (link_path sd) = true →
      run ranks sd fs input = .ok (fs, printLine (tokenCount ranks input))) ∧
    (pathExists fs (link_path sd) = false →
      run ranks sd fs input = .error .fileExists) := by
  constructor
  · intro hp
    exact run_primed ranks sd fs input hdir hp
  · intro hp
    unfold run
    rw [makedirs_of_isDir _ _ hdir]
    show runAfterMakedirs ranks sd fs input = _
    unfold runAfterMakedirs
    have hs : symlink fs target_path (link_path sd) = .error .fileExists := by
      unfold symlink
      rw [hn]
    rw [hp, hs]
    simp

theorem existingEntryNoOverwrite_witness :
    run [] "/s" fsPrimed "x" = .ok (fsPrimed, printLine (tokenCount [] "x")) :=
  (existingEntryNoOverwrite [] "/s" fsPrimed "x" (.symlink target_path)
    (by decide) (by decide)).1 (by decide)

/-- C1 (counterexample): a cache directory holding a broken (dangling) alias
under the expected cache key.  The claim says the tool performs no link
creation and does not error merely because of that entry's presence, but the
run aborts with a file-exists error: `os.path.exists` follows the dangling
link and reports `false`, so `os.symlink` is attempted on the occupied
path. -/
theorem brokenAliasRunErrors :
    fsFind fsBroken (link_path "/s") = some (.symlink target_path) ∧
    pathExists fsBroken (link_path "/s") = false ∧
    run [] "/s" fsBroken "x" = .error .fileExists := by decide

/-- C6: creating the cache directory is idempotent — if the path already
resolves to a directory, `os.makedirs` with `exist_ok=True` succeeds and
leaves the filesystem unchanged — while a collision with a non-directory
entry is fatal: `os.makedirs` raises a file-exists error and the whole run
aborts with it. -/
theorem makedirsIdempotentOrFatal (sd : String) (fs : FS) :
    (isDir fs (cache_dir sd) = true → makedirs fs (cache_dir sd) = .ok fs) ∧
    (∀ n, fsFind fs (cache_dir sd) = some n →
      isDir fs (cache_dir sd) = false →
      makedirs fs (cache_dir sd) = .error .fileExists ∧
      ∀ ranks input, run ranks sd fs input = .error .fileExists) := by
  constructor
  · exact makedirs_of_isDir fs (cache_dir sd)
  · intro n hn hnd
    have hm : makedirs fs (cache_dir sd) = .error .fileExists := by
      unfold makedirs
      rw [hn]
      simp [hnd]
    refine ⟨hm, fun ranks input => ?_⟩
    unfold run
    rw [hm]

theorem makedirsIdempotentOrFatal_witness :
    makedirs fsDirOnly (cache_dir "/s") = .ok fsDirOnly ∧
    run [] "/s" fsCollide "" = .error .fileExists :=
  ⟨(makedirsIdempotentOrFatal "/s" fsDirOnly).1 (by decide),
   ((makedirsIdempotentOrFatal "/s" fsCollide).2 FSNode.file
     (by decide) (by decide)).2 [] ""⟩

/-- C3 (counterexample): after a clean run the alias stores the literal
target `./cl100k_base.tiktoken`; symlink resolution interprets it relative
to the directory containing the link, so it denotes
`/s/cache/cl100k_base.tiktoken` — not the vendored file next to the tool,
which would be `/s/cl100k_base.tiktoken` — and even with that vendored file
present next to the tool, a lookup through the fresh alias fails. -/
theorem aliasTargetNotToolDir :
    run [] "/s" [] "" = .ok (fsAfterClean, "0\n") ∧
    fsFind fsAfterClean (link_path "/s") = some (.symlink target_path) ∧
    resolveLink (dirname (link_path "/s")) target_path
      = "/s/cache/cl100k_base.tiktoken" ∧
    pathJoin "/s" "cl100k_base.tiktoken" = "/s/cl100k_base.tiktoken" ∧
    (("/s/cache/cl100k_base.tiktoken" : String)
      == "/s/cl100k_base.tiktoken") = false ∧
    pathExists ((pathJoin "/s" "cl100k_base.tiktoken", FSNode.file)
      :: fsAfterClean) (link_path "/s") = false := by decide

/-- C3 (amended): the alias entry created under the cache key stores the
relative target `./cl100k_base.tiktoken`, which symbolic-link resolution
interprets relative to the cache directory containing the link: a lookup
through the alias resolves to the file `cl100k_base.tiktoken` inside the
cache directory, which is never the path of that file name next to the
tool. -/
theorem aliasResolvesIntoCacheDir (ranks : Ranks) (sd : String) (fs : FS)
    (input : String)
    (hcd : fsFind fs (cache_dir sd) = none)
    (hlp : fsFind fs (link_path sd) = none) :
    run ranks sd fs input =
      .ok ((link_path sd, .symlink target_path) :: (cache_dir sd, .dir) :: fs,
           printLine (tokenCount ranks input)) ∧
    resolveLink (dirname (link_path sd)) target_path
      = cache_dir sd ++ "/" ++ "cl100k_base.tiktoken" ∧
    ((cache_dir sd ++ "/" ++ "cl100k_base.tiktoken")
      == pathJoin sd "cl100k_base.tiktoken") = false := by
  refine ⟨run_clean ranks sd fs input hcd hlp, ?_, ?_⟩
  · rw [dirname_link_path]
    exact resolveLink_target sd
  · exact beq_eq_false_iff_ne.mpr (resolved_target_ne_tool_dir sd)

theorem aliasResolvesIntoCacheDir_witness :
    run [] "/s" [] "" = .ok (fsAfterClean, "0\n") ∧
    resolveLink (dirname (link_path "/s")) target_path
      = cache_dir "/s" ++ "/" ++ "cl100k_base.tiktoken" ∧
    ((cache_dir "/s" ++ "/" ++ "cl100k_base.tiktoken")
      == pathJoin "/s" "cl100k_base.tiktoken") = false :=
  aliasResolvesIntoCacheDir [] "/s" [] "" rfl rfl
